import Mathlib

/-!
Verification of the macro-expansion engine of `function-inline-loader`.

The repository holds two near-duplicate implementations of the same engine:
`src/function-inline-loader.js` (namespace `FIL` below, the single-sweep regex
driver) and `src/js-inline-loader.js` (namespace `JIL` below, the iterative
re-parse driver).  The helper functions `getExportedFunctions`,
`replaceIdentifier`, `compileArgumentAst` and `loadModuleContents` are
textually identical in the two files and are embedded once, at top level.

JavaScript AST values (the esprima trees the engine walks) are embedded as the
dynamic value type `JVal`.  Property access follows JavaScript semantics:
reading a property of `null` or `undefined` throws a `TypeError`, which the
embedding models as `Option.none`; reading an absent property of an object or
a property of a primitive yields `undefined`.  External capabilities (the
filesystem, `esprima.parse`, `escodegen.generate`, `path.resolve`) are
dependency boundaries of the engine and enter as explicit parameters.
-/

/-- A dynamically-typed JavaScript value, as the loader's tree walks see it. -/
inductive JVal where
  | undef : JVal
  | null : JVal
  | bool : Bool → JVal
  | str : String → JVal
  | num : Int → JVal
  | arr : List JVal → JVal
  | obj : List (String × JVal) → JVal
deriving Repr

/-- Field lookup inside an object's field list; an absent key reads as
`undefined`, as in JavaScript.  Insertion order of the field list is the
enumeration order of `Object.keys`. -/
def getFd (fields : List (String × JVal)) (k : String) : JVal :=
  match fields.find? (fun p => p.1 == k) with
  | some p => p.2
  | none => JVal.undef

/-- JavaScript property read `v.k`: throws (`none`) on `null`/`undefined`,
reads the field list of an object, and yields `undefined` on primitives and
on arrays (the keys the loader reads are never array indices). -/
def jsGet (v : JVal) (k : String) : Option JVal :=
  match v with
  | JVal.undef => none
  | JVal.null => none
  | JVal.obj fields => some (getFd fields k)
  | _ => some JVal.undef

/-- JavaScript indexed read `v[i]`: throws on `null`/`undefined`, reads an
array element (`undefined` past the end), otherwise `undefined`. -/
def jsIndex (v : JVal) (i : Nat) : Option JVal :=
  match v with
  | JVal.undef => none
  | JVal.null => none
  | JVal.arr xs => some ((xs.get? i).getD JVal.undef)
  | JVal.obj fields => some (getFd fields (toString i))
  | _ => some JVal.undef

/-- Strict-equality test of a value against a string literal, as in
`v === 'literal'` where `v` came from a property read. -/
def isStr (v : JVal) (t : String) : Bool :=
  match v with
  | JVal.str s => s == t
  | _ => false

/-- JavaScript truthiness, used by guards such as `node.init && ...`. -/
def truthy (v : JVal) : Bool :=
  match v with
  | JVal.undef => false
  | JVal.null => false
  | JVal.bool b => b
  | JVal.str s => s ≠ ""
  | JVal.num n => n ≠ 0
  | _ => true

/-- One declarator scan of `node.declarations.forEach`: marks shadowing when
`node.id.name === name`.  The `forEach` visits every declarator and does not
short-circuit, so a throwing read anywhere in the list aborts the scan. -/
def declListShadows (name : String) : List JVal → Option Bool
  | [] => some false
  | d :: rest =>
      match jsGet d "id" with
      | none => none
      | some idv =>
          match jsGet idv "name" with
          | none => none
          | some nm =>
              match declListShadows name rest with
              | none => none
              | some r => some ((isStr nm name) || r)

/-- One statement's contribution to the shadow scan of `replaceIdentifier`:
a `VariableDeclaration` declaring `name`, or a `ForStatement` whose
initializer is a `VariableDeclaration` declaring `name`.  The source tests
the two statement kinds with two independent `if`s over the same
`node.type`, which is equivalent to the chain written here. -/
def stmtShadows (name : String) (node : JVal) : Option Bool :=
  match jsGet node "type" with
  | none => none
  | some t =>
    if isStr t "VariableDeclaration" then
      match jsGet node "declarations" with
      | none => none
      | some (JVal.arr l) => declListShadows name l
      | some _ => none
    else if isStr t "ForStatement" then
      match jsGet node "init" with
      | none => none
      | some initv =>
        if truthy initv then
          match jsGet initv "type" with
          | none => none
          | some it =>
            if isStr it "VariableDeclaration" then
              match jsGet initv "declarations" with
              | none => none
              | some (JVal.arr l) => declListShadows name l
              | some _ => none
            else some false
        else some false
    else some false

/-- The full `inAst.body.forEach` shadow scan over a statement list. -/
def scanShadow (name : String) : List JVal → Option Bool
  | [] => some false
  | n :: rest =>
      match stmtShadows name n with
      | none => none
      | some b =>
          match scanShadow name rest with
          | none => none
          | some r => some (b || r)

/-- Index-keyed object fields, as `Object.keys` enumerates an array or a
string that reached the reduce of `replaceIdentifier`. -/
def indexFields (vs : List JVal) : List (String × JVal) :=
  (vs.enum.map fun p => (toString p.1, p.2))

/-- Embedding of `replaceIdentifier(name, withAst, inAst)`, identical in both
source files.  `none` models an uncaught `TypeError` (property read on
`null`/`undefined`); such inputs never arise from esprima trees.  A call on a
primitive mirrors the JavaScript fall-through into the `Object.keys` reduce:
numbers and booleans rebuild as an empty object, strings as an object of
their characters, arrays as an index-keyed object.  The source recursion is
bounded by the tree depth; here an explicit fuel makes the recursion
structural, and every statement below holds for every sufficient fuel.  The
local `pv` is the per-value rule of the reduce: array values are mapped
element-wise with the full function, object values recurse, every scalar
(including `null`) is copied as-is. -/
def replaceIdentifier : Nat → String → JVal → JVal → Option JVal
  | 0, _, _, _ => none
  | fuel + 1, name, withAst, inAst =>
    let pv : JVal → Option JVal := fun v =>
      match v with
      | JVal.arr xs => (xs.mapM (replaceIdentifier fuel name withAst)).map JVal.arr
      | JVal.obj fs => replaceIdentifier fuel name withAst (JVal.obj fs)
      | x => some x
    match inAst with
    | JVal.obj fields =>
        if isStr (getFd fields "type") "Identifier" && isStr (getFd fields "name") name then
          some withAst
        else
          match getFd fields "body" with
          | JVal.arr body =>
              match scanShadow name body with
              | none => none
              | some true => some (JVal.obj fields)
              | some false =>
                  (fields.mapM (fun p => (pv p.2).map (fun v2 => (p.1, v2)))).map JVal.obj
          | _ => (fields.mapM (fun p => (pv p.2).map (fun v2 => (p.1, v2)))).map JVal.obj
    | JVal.null => none
    | JVal.undef => none
    | JVal.bool _ => some (JVal.obj [])
    | JVal.num _ => some (JVal.obj [])
    | JVal.str s =>
        some (JVal.obj (indexFields (s.toList.map fun c => JVal.str (String.singleton c))))
    | JVal.arr xs => (xs.mapM pv).map (fun vs => JVal.obj (indexFields vs))

/-- The per-value rule of the `Object.keys` reduce, as a named function for
the statements below; it coincides definitionally with the local `pv` of
`replaceIdentifier`. -/
def replaceValue (fuel : Nat) (name : String) (withAst : JVal) (v : JVal) : Option JVal :=
  match v with
  | JVal.arr xs => (xs.mapM (replaceIdentifier fuel name withAst)).map JVal.arr
  | JVal.obj fs => replaceIdentifier fuel name withAst (JVal.obj fs)
  | x => some x

/-- The field-list rebuild of the reduce, as a named function. -/
def replaceFields (fuel : Nat) (name : String) (withAst : JVal)
    (fields : List (String × JVal)) : Option (List (String × JVal)) :=
  fields.mapM (fun p => (replaceValue fuel name withAst p.2).map (fun v2 => (p.1, v2)))

/-- One entry of the working table of `getExportedFunctions`: the
`{ exported: ..., ast: ... }` records accumulated during the walk. -/
structure FnEntry where
  exported : Bool
  ast : JVal
deriving Repr

/-- The working table, a JavaScript object: keys unique, insertion-ordered. -/
abbrev FnTable := List (String × FnEntry)

/-- JavaScript object assignment `t[k] = v`: overwrites in place keeping the
key's position, or appends a new key. -/
def setKey (t : FnTable) (k : String) (v : FnEntry) : FnTable :=
  if t.any (fun p => p.1 == k) then
    t.map (fun p => if p.1 == k then (k, v) else p)
  else
    t ++ [(k, v)]

/-- JavaScript membership test `t[k] !== undefined`, yielding the entry. -/
def getKey? (t : FnTable) (k : String) : Option FnEntry :=
  (t.find? (fun p => p.1 == k)).map (fun p => p.2)

/-- The in-place `scopeFunctions[name].exported = true`. -/
def markExported (t : FnTable) (k : String) : FnTable :=
  t.map (fun p => if p.1 == k then (p.1, FnEntry.mk true p.2.ast) else p)

/-- The `node.declarations.forEach` of the `VariableDeclaration` branch of
`getExportedFunctions`: records declarators initialized with a function
expression.  Reading `node.init.type` of an initializer-less declarator
(`var x;`) throws, which `none` models.  Declarators whose `id` is not a
plain identifier are outside the model. -/
def varDeclsFold (acc : FnTable) : List JVal → Option FnTable
  | [] => some acc
  | d :: rest =>
      match jsGet d "init" with
      | none => none
      | some initv =>
        match jsGet initv "type" with
        | none => none
        | some it =>
          if isStr it "FunctionExpression" then
            match jsGet d "id" with
            | none => none
            | some idv =>
              match jsGet idv "name" with
              | none => none
              | some (JVal.str ns) =>
                  varDeclsFold (setKey acc ns (FnEntry.mk false initv)) rest
              | some _ => none
          else varDeclsFold acc rest

/-- The `node.declaration.body.body.forEach` of the default-class branch:
records every static method as exported under the method's name.  Methods
with computed keys are outside the model. -/
def classBodyFold (acc : FnTable) : List JVal → Option FnTable
  | [] => some acc
  | m :: rest =>
      match jsGet m "type" with
      | none => none
      | some mt =>
        if isStr mt "MethodDefinition" then
          match jsGet m "static" with
          | none => none
          | some st =>
            if truthy st then
              match jsGet m "key" with
              | none => none
              | some keyv =>
                match jsGet keyv "name" with
                | none => none
                | some namev =>
                  match jsGet m "value" with
                  | none => none
                  | some valuev =>
                    match namev with
                    | JVal.str ns =>
                        classBodyFold (setKey acc ns (FnEntry.mk true valuev)) rest
                    | _ => none
            else classBodyFold acc rest
        else classBodyFold acc rest

/-- The `node.expression.right.properties.forEach` of the CommonJS export-bag
branch.  A property valued by an identifier that names a recorded function is
marked exported (renamed when the bag key differs); an inline function
expression is recorded directly as exported; identifier references to
unknown names are skipped.  Properties with non-identifier keys are outside
the model. -/
def bagPropsFold (acc : FnTable) : List JVal → Option FnTable
  | [] => some acc
  | p :: rest =>
      match jsGet p "key" with
      | none => none
      | some keyv =>
        match jsGet keyv "name" with
        | none => none
        | some namev =>
          match jsGet p "value" with
          | none => none
          | some value =>
            match jsGet value "type" with
            | none => none
            | some vt =>
              if isStr vt "Identifier" then
                match jsGet value "name" with
                | none => none
                | some (JVal.str vns) =>
                    match getKey? acc vns with
                    | some entry =>
                        match namev with
                        | JVal.str ns =>
                            if ns == vns then
                              bagPropsFold (markExported acc vns) rest
                            else
                              bagPropsFold (setKey acc ns (FnEntry.mk true entry.ast)) rest
                        | _ => none
                    | none => bagPropsFold acc rest
                | some _ => none
              else if isStr vt "FunctionExpression" then
                match namev with
                | JVal.str ns => bagPropsFold (setKey acc ns (FnEntry.mk true value)) rest
                | _ => none
              else
                bagPropsFold acc rest

/-- One top-level statement of the `ast.body.reduce` of
`getExportedFunctions`.  The five recognized shapes update the table; any
other shape falls through to the final `return scopeFunctions`.  Reads that
throw in JavaScript (for example `node.declaration.type` when `declaration`
is `null`, or `node.expression.left.type` when the expression statement is
not an assignment-like node with a `left` field) yield `none`. -/
def processTopStmt (acc : FnTable) (node : JVal) : Option FnTable :=
  match jsGet node "type" with
  | none => none
  | some t =>
    if isStr t "ExportNamedDeclaration" then
      match jsGet node "declaration" with
      | none => none
      | some decl =>
        match jsGet decl "type" with
        | none => none
        | some dt =>
          if isStr dt "FunctionDeclaration" then
            match jsGet decl "id" with
            | none => none
            | some idv =>
              match jsGet idv "name" with
              | none => none
              | some (JVal.str ns) => some (setKey acc ns (FnEntry.mk true decl))
              | some _ => none
          else some acc
    else if isStr t "FunctionDeclaration" then
      match jsGet node "id" with
      | none => none
      | some idv =>
        match jsGet idv "name" with
        | none => none
        | some (JVal.str ns) => some (setKey acc ns (FnEntry.mk false node))
        | some _ => none
    else if isStr t "VariableDeclaration" then
      match jsGet node "declarations" with
      | none => none
      | some (JVal.arr l) => varDeclsFold acc l
      | some _ => none
    else if isStr t "ExportDefaultDeclaration" then
      match jsGet node "declaration" with
      | none => none
      | some decl =>
        match jsGet decl "type" with
        | none => none
        | some dt =>
          if isStr dt "ClassDeclaration" then
            match jsGet decl "body" with
            | none => none
            | some cb =>
              match jsGet cb "body" with
              | none => none
              | some (JVal.arr l) => classBodyFold acc l
              | some _ => none
          else some acc
    else if isStr t "ExpressionStatement" then
      match jsGet node "expression" with
      | none => none
      | some e =>
        match jsGet e "left" with
        | none => none
        | some l =>
          match jsGet l "type" with
          | none => none
          | some lt =>
            if isStr lt "MemberExpression" then
              match jsGet l "object" with
              | none => none
              | some lo =>
                match jsGet lo "name" with
                | none => none
                | some lon =>
                  if isStr lon "module" then
                    match jsGet l "property" with
                    | none => none
                    | some lp =>
                      match jsGet lp "name" with
                      | none => none
                      | some lpn =>
                        if isStr lpn "exports" then
                          match jsGet e "right" with
                          | none => none
                          | some r =>
                            match jsGet r "type" with
                            | none => none
                            | some rt =>
                              if isStr rt "ObjectExpression" then
                                match jsGet r "properties" with
                                | none => none
                                | some (JVal.arr pl) => bagPropsFold acc pl
                                | some _ => none
                              else some acc
                        else some acc
                  else some acc
            else some acc
    else
      some acc

/-- The left-to-right reduce over the module's top-level statement list. -/
def foldTopStmts (acc : FnTable) : List JVal → Option FnTable
  | [] => some acc
  | n :: rest =>
      match processTopStmt acc n with
      | none => none
      | some acc2 => foldTopStmts acc2 rest

/-- Embedding of `getExportedFunctions(ast)`, identical in both source
files: walk the top-level statements, then keep only the entries marked
exported, mapping name to the recorded function subtree. -/
def getExportedFunctions (ast : JVal) : Option (List (String × JVal)) :=
  match jsGet ast "body" with
  | none => none
  | some (JVal.arr stmts) =>
      match foldTopStmts [] stmts with
      | none => none
      | some functions =>
          some (functions.foldl
            (fun acc p => if p.2.exported then acc ++ [(p.1, p.2.ast)] else acc) [])
  | some _ => none

namespace JIL

/-- Embedding of `renderFunction(ast)` from `src/js-inline-loader.js`.
The external `escodegen.generate` enters as the parameter `gen`.  An empty
body renders as empty text; a body whose first statement is a return renders
only the returned expression; otherwise the whole statement list is rendered
as a program fragment.  A function whose `body.body` is not an array is
outside esprima's output and models as a raised error. -/
def renderFunction (gen : JVal → String) (ast : JVal) : Option String :=
  match jsGet ast "body" with
  | none => none
  | some b =>
    match jsGet b "body" with
    | none => none
    | some (JVal.arr []) => some ""
    | some (JVal.arr (s0 :: rest)) =>
        match jsGet s0 "type" with
        | none => none
        | some t =>
          if isStr t "ReturnStatement" then
            match jsGet s0 "argument" with
            | none => none
            | some a => some (gen a)
          else
            some (gen (JVal.obj [("type", JVal.str "Program"),
              ("body", JVal.arr (s0 :: rest)), ("sourceType", JVal.str "script")]))
    | some _ => none

end JIL

namespace FIL

/-- Embedding of `renderFunction(ast)` from `src/function-inline-loader.js`.
This variant has no empty-body case: on an empty body the source reads
`ast.body.body[0].type`, a property of `undefined`, and throws a
`TypeError`, modelled as `none`. -/
def renderFunction (gen : JVal → String) (ast : JVal) : Option String :=
  match jsGet ast "body" with
  | none => none
  | some b =>
    match jsGet b "body" with
    | none => none
    | some (JVal.arr []) => none
    | some (JVal.arr (s0 :: rest)) =>
        match jsGet s0 "type" with
        | none => none
        | some t =>
          if isStr t "ReturnStatement" then
            match jsGet s0 "argument" with
            | none => none
            | some a => some (gen a)
          else
            some (gen (JVal.obj [("type", JVal.str "Program"),
              ("body", JVal.arr (s0 :: rest)), ("sourceType", JVal.str "script")]))
    | some _ => none

end FIL

/-- External capabilities consumed by the drivers: the filesystem read (a
failed `fs.readFileSync` is caught and models as `none`), `esprima.parse`
(an `Except.error` carries the thrown message), `escodegen.generate`, and
`path.resolve`. -/
structure LoaderExt where
  readFile : String → Option String
  parse : String → Except String JVal
  gen : JVal → String
  resolvePath : String → String → String

/-- Embedding of `loadModuleContents(modulePath, options)`, identical in both
source files: try each configured extension suffix in order, first readable
file wins, `none` when every candidate fails.  The extension list comes from
the host options (default `["", ".js"]`). -/
def loadModuleContents (ext : LoaderExt) (modulePath : String) (extensions : List String) :
    Option String :=
  extensions.foldl
    (fun payload e =>
      match payload with
      | some p => some p
      | none => ext.readFile (modulePath ++ e))
    none

/-- Embedding of `compileArgumentAst(argsExpression)`, identical in both
source files: parse `X(<args>)` and extract `body[0].expression.arguments`.
A parse failure is an uncaught throw (`none`); a parse result without an
argument array cannot arise from a successful esprima parse of that text. -/
def compileArgumentAst (ext : LoaderExt) (argsExpression : String) : Option (List JVal) :=
  match ext.parse ("X(" ++ argsExpression ++ ")") with
  | Except.error _ => none
  | Except.ok ast =>
      match jsGet ast "body" with
      | none => none
      | some b =>
        match jsIndex b 0 with
        | none => none
        | some s0 =>
          match jsGet s0 "expression" with
          | none => none
          | some e =>
            match jsGet e "arguments" with
            | none => none
            | some (JVal.arr l) => some l
            | some _ => none

/-- Embedding of the parameter-substitution loop shared verbatim by both
drivers: `for (i = 0; i < fnArgs.length; ++i) fnAst =
replaceIdentifier(fnAst.params[i].name, fnArgs[i], fnAst)`.  The parameter
list is re-read from the current (already substituted) tree each iteration.
When the loop runs past the declared parameters, `params[i]` is `undefined`
and reading `.name` throws (`none`).  Parameters that are not plain
identifier nodes are outside the model. -/
def substituteParams (fuel : Nat) (fnArgs : List JVal) (i : Nat) (fnAst : JVal) :
    Option JVal :=
  match fnArgs with
  | [] => some fnAst
  | a :: rest =>
      match jsGet fnAst "params" with
      | none => none
      | some params =>
        match jsIndex params i with
        | none => none
        | some p =>
          match jsGet p "name" with
          | none => none
          | some (JVal.str s) =>
              match replaceIdentifier fuel s a fnAst with
              | none => none
              | some fnAst2 => substituteParams fuel rest (i + 1) fnAst2
          | some _ => none

/-- The observable outcome of expanding one macro site: the text substituted
at the site, the diagnostics emitted through `emitError`, and the
dependencies registered through `addDependency`. -/
structure SiteResult where
  output : String
  errors : List String
  deps : List String
deriving Repr

namespace JIL

/-- Embedding of `getFunctionCode(gModule, gFunction, fnArgs)` from
`src/js-inline-loader.js`: resolve and read the target module (diagnostic
and placeholder when missing), parse it (diagnostic and placeholder on a
parse error), resolve the export table, look up the function (diagnostic and
placeholder when unknown), substitute the arguments and render.  `none`
models an uncaught throw inside the un-guarded steps. -/
def getFunctionCode (ext : LoaderExt) (fuel : Nat) (context : String)
    (extensions : List String) (gModule gFunction : String) (fnArgs : List JVal) :
    Option SiteResult :=
  let filePath := ext.resolvePath context gModule
  match loadModuleContents ext filePath extensions with
  | none =>
      some (SiteResult.mk ("/* Missing module " ++ gModule ++ " */")
        ["Could not find module `" ++ gModule ++ "`"] [])
  | some contents =>
    match ext.parse contents with
    | Except.error e =>
        some (SiteResult.mk ("/* Parsing error in module " ++ gModule ++ " */")
          ["%inline(\"" ++ gModule ++ "\"): " ++ e] [])
    | Except.ok ast =>
      match getExportedFunctions ast with
      | none => none
      | some exportedFn =>
        match (exportedFn.find? (fun p => p.1 == gFunction)).map (fun p => p.2) with
        | none =>
            some (SiteResult.mk ("/* Unknown inline " ++ gFunction ++ " */")
              ["%inline(\"" ++ gModule ++ "\"): Undefined function `" ++ gFunction] [filePath])
        | some fnAst =>
          match substituteParams fuel fnArgs 0 fnAst with
          | none => none
          | some fnAst2 =>
            match renderFunction ext.gen fnAst2 with
            | none => none
            | some code => some (SiteResult.mk code [] [filePath])

/-- Is a value a JavaScript object in the `typeof` sense (`object`s, arrays
and `null`)?  Used by the element guard of the `findInlineToken` walk. -/
def typeofObject (v : JVal) : Bool :=
  match v with
  | JVal.obj _ => true
  | JVal.arr _ => true
  | JVal.null => true
  | _ => false

/-- First positive hit of a token search over a list: `some none` when the
whole list is searched without a find, propagating a throw (`none`) and an
early positive answer.  This is the `if (ans) return ans` loop shape of the
walk. -/
def firstHit (f : JVal → Option (Option JVal)) : List JVal → Option (Option JVal)
  | [] => some none
  | v :: rest =>
      match f v with
      | none => none
      | some (some t) => some (some t)
      | some none => firstHit f rest

/-- Embedding of `findInlineToken(ast)` from `src/js-inline-loader.js`:
depth-first search, in key order, for the first call expression whose callee
is the magic name.  The outer `Option` models an uncaught throw (reaching
`null` through an array element recurses into it and reading `.type`
throws); the inner `Option` is the JavaScript `null` result when nothing is
found.  The local `walkValue` is the per-field dispatch of the walk (arrays
iterate their elements under the `typeof` guard, objects recurse, scalars
and `null` field values are skipped); fuel makes the recursion structural. -/
def findInlineToken : Nat → JVal → Option (Option JVal)
  | 0, _ => none
  | fuel + 1, ast =>
    let walkElem : JVal → Option (Option JVal) := fun e =>
      if typeofObject e then findInlineToken fuel e else some none
    let walkValue : JVal → Option (Option JVal) := fun v =>
      match v with
      | JVal.arr elems => firstHit walkElem elems
      | JVal.obj fs => findInlineToken fuel (JVal.obj fs)
      | _ => some none
    match ast with
    | JVal.obj fields =>
        if isStr (getFd fields "type") "CallExpression" then
          match jsGet (getFd fields "callee") "name" with
          | none => none
          | some nm =>
              if isStr nm "___js_inline_loader_inline" then
                some (some (JVal.obj fields))
              else
                firstHit walkValue (fields.map (fun p => p.2))
        else firstHit walkValue (fields.map (fun p => p.2))
    | JVal.arr elems => firstHit walkValue elems
    | JVal.null => none
    | JVal.undef => none
    | _ => some none

end JIL

/-- Replacement of every `\r?\n` occurrence by `repl`, as the indentation
step's `code.replace(/\r?\n/g, ...)` performs. -/
def replaceNewlinesAux (repl : List Char) : List Char → List Char
  | [] => []
  | '\r' :: '\n' :: rest => repl ++ replaceNewlinesAux repl rest
  | '\n' :: rest => repl ++ replaceNewlinesAux repl rest
  | c :: rest => c :: replaceNewlinesAux repl rest

/-- String wrapper for the newline re-indentation. -/
def replaceNewlines (s repl : String) : String :=
  String.mk (replaceNewlinesAux repl.toList s.toList)

/-- The `source.substring(0, r0) + replacement + source.substring(r1)` splice
of the iterative driver (character positions; `substring` clamps). -/
def spliceRange (source replacement : String) (r0 r1 : Nat) : String :=
  String.mk (source.toList.take r0) ++ replacement ++ String.mk (source.toList.drop r1)

namespace JIL

/-- Embedding of `replaceInlineFunc(source, callback)` from
`src/js-inline-loader.js`: parse the current source (on a parse failure,
emit a diagnostic and return the current source unchanged), find the next
magic-token call, obtain its replacement from the callback, splice it over
the token's character range, and loop.  The callback receives
`arguments[0].value`, `arguments[1].name` and the remaining argument nodes,
and reports its own diagnostics.  The unbounded `while (true)` is given
explicit fuel; `none` models fuel exhaustion or an uncaught throw.  The
`errs` accumulator is the `emitError` side channel. -/
def replaceInlineFunc (ext : LoaderExt) (tokenFuel : Nat)
    (callback : JVal → JVal → List JVal → Option (String × List String)) :
    Nat → String → List String → Option (String × List String)
  | 0, _, _ => none
  | fuel + 1, source, errs =>
      match ext.parse source with
      | Except.error e =>
          some (source, errs ++ ["Inline processing failed: SyntaxError: " ++ e])
      | Except.ok ast =>
          match findInlineToken tokenFuel ast with
          | none => none
          | some none => some (source, errs)
          | some (some token) =>
              match jsGet token "arguments" with
              | none => none
              | some (JVal.arr l) =>
                  match jsIndex (JVal.arr l) 0 with
                  | none => none
                  | some a0 =>
                    match jsGet a0 "value" with
                    | none => none
                    | some mv =>
                      match jsIndex (JVal.arr l) 1 with
                      | none => none
                      | some a1 =>
                        match jsGet a1 "name" with
                        | none => none
                        | some fv =>
                          match callback mv fv (l.drop 2) with
                          | none => none
                          | some (repl, cbErrs) =>
                            match jsGet token "range" with
                            | none => none
                            | some (JVal.arr [JVal.num r0, JVal.num r1]) =>
                                replaceInlineFunc ext tokenFuel callback fuel
                                  (spliceRange source repl r0.toNat r1.toNat)
                                  (errs ++ cbErrs)
                            | some _ => none
              | some _ => none

end JIL

namespace FIL

/-- One site matched by the `INLINE_MACRO` pattern of
`src/function-inline-loader.js`, as its captured groups: leading
indentation, the optional same-line prefix expression, the module path, the
function name, and the raw argument text.  The pattern recognizer itself is
the external regex engine. -/
structure MacroSite where
  gIndent : String
  gAssignExpr : Option String
  gFile : String
  gFunction : String
  gArgs : String
deriving Repr

/-- Embedding of the per-match callback of the `module.exports` transform in
`src/function-inline-loader.js`.  Note the contrasts with the other driver:
a missing module is not checked (the `null` contents reach `esprima.parse`,
which throws) and a module parse error is not caught, so both model as
`none`, an exception that aborts the whole sweep; an unknown function and an
arity mismatch return placeholder text and a diagnostic; a successful
expansion is re-indented under the captured indentation (with four extra
spaces under a prefix expression). -/
def expandSite (ext : LoaderExt) (fuel : Nat) (context : String)
    (extensions : List String) (site : MacroSite) : Option SiteResult :=
  let filePath := ext.resolvePath context site.gFile
  match loadModuleContents ext filePath extensions with
  | none => none
  | some contents =>
    match ext.parse contents with
    | Except.error _ => none
    | Except.ok ast =>
      match getExportedFunctions ast with
      | none => none
      | some exportedFn =>
        match (exportedFn.find? (fun p => p.1 == site.gFunction)).map (fun p => p.2) with
        | none =>
            some (SiteResult.mk ("/* Unknown inline " ++ site.gFunction ++ " */")
              ["Trying to inline unknown function " ++ site.gFunction ++
               " in module " ++ site.gFile] [filePath])
        | some fnAst =>
          match compileArgumentAst ext site.gArgs with
          | none => none
          | some fnArgs =>
            match jsGet fnAst "params" with
            | some (JVal.arr params) =>
              if fnArgs.length ≠ params.length then
                some (SiteResult.mk ("/* Invalid syntax for " ++ site.gFunction ++ " */")
                  ["Function " ++ site.gFunction ++ " is expecting exactly " ++
                   toString params.length ++ " arguments, but got " ++
                   toString fnArgs.length] [filePath])
              else
                match substituteParams fuel fnArgs 0 fnAst with
                | none => none
                | some fnAst2 =>
                  match renderFunction ext.gen fnAst2 with
                  | none => none
                  | some code =>
                    let indented :=
                      match site.gAssignExpr with
                      | some ae =>
                          site.gIndent ++ ae ++
                            replaceNewlines code ("\n" ++ site.gIndent ++ "    ")
                      | none => site.gIndent ++ replaceNewlines code ("\n" ++ site.gIndent)
                    some (SiteResult.mk indented [] [filePath])
            | _ => none

/-- The single-sweep driver over the matched sites of one file:
`source.replace(INLINE_MACRO, callback)` invokes the callback once per
matched site, left to right, each invocation independent of the others; an
exception thrown by any callback aborts the whole transform, which `none`
models.  The regex engine supplying the match list is external. -/
def transformSites (ext : LoaderExt) (fuel : Nat) (context : String)
    (extensions : List String) : List MacroSite → Option (List SiteResult)
  | [] => some []
  | s :: rest =>
      match expandSite ext fuel context extensions s with
      | none => none
      | some r =>
          match transformSites ext fuel context extensions rest with
          | none => none
          | some rs => some (r :: rs)

end FIL

/-- A heap value of the store-level model: a primitive or a reference into
the store.  This second model of `replaceIdentifier` makes the JavaScript
heap explicit, so that the no-mutation contract of the substitution engine
becomes a provable frame property instead of a by-construction triviality. -/
inductive HVal where
  | undef : HVal
  | null : HVal
  | bool : Bool → HVal
  | str : String → HVal
  | num : Int → HVal
  | ref : Nat → HVal
deriving Repr, DecidableEq

/-- A heap cell: a plain object or an array. -/
inductive HCell where
  | obj : List (String × HVal) → HCell
  | arr : List HVal → HCell
deriving Repr, DecidableEq

/-- The store: cells addressed by position; allocation appends. -/
abbrev Store := List HCell

/-- Field lookup in a heap object's field list. -/
def hGetFd (fields : List (String × HVal)) (k : String) : HVal :=
  match fields.find? (fun p => p.1 == k) with
  | some p => p.2
  | none => HVal.undef

/-- Heap property read `v.k`: throws on `null`/`undefined`, reads objects,
yields `undefined` on arrays and primitives; a dangling reference is outside
the model. -/
def hGet (σ : Store) (v : HVal) (k : String) : Option HVal :=
  match v with
  | HVal.undef => none
  | HVal.null => none
  | HVal.ref r =>
      match σ.get? r with
      | some (HCell.obj fields) => some (hGetFd fields k)
      | some (HCell.arr _) => some HVal.undef
      | none => none
  | _ => some HVal.undef

/-- Strict equality of a heap value against a string literal. -/
def isStrH (v : HVal) (t : String) : Bool :=
  match v with
  | HVal.str s => s == t
  | _ => false

/-- JavaScript truthiness of a heap value (objects are always truthy). -/
def truthyH (v : HVal) : Bool :=
  match v with
  | HVal.undef => false
  | HVal.null => false
  | HVal.bool b => b
  | HVal.str s => s ≠ ""
  | HVal.num n => n ≠ 0
  | HVal.ref _ => true

/-- Heap view of `Array.isArray(v)`: the element list when `v` references an
array cell. -/
def hAsArr (σ : Store) (v : HVal) : Option (List HVal) :=
  match v with
  | HVal.ref r =>
      match σ.get? r with
      | some (HCell.arr elems) => some elems
      | _ => none
  | _ => none

/-- Heap-level declarator scan of the shadow check (read-only). -/
def declListShadowsH (σ : Store) (name : String) : List HVal → Option Bool
  | [] => some false
  | d :: rest => do
      let idv ← hGet σ d "id"
      let nm ← hGet σ idv "name"
      let r ← declListShadowsH σ name rest
      return (isStrH nm name) || r

/-- Heap-level statement contribution to the shadow scan (read-only). -/
def stmtShadowsH (σ : Store) (name : String) (node : HVal) : Option Bool := do
  let t ← hGet σ node "type"
  if isStrH t "VariableDeclaration" then
    let ds ← hGet σ node "declarations"
    match hAsArr σ ds with
    | some l => declListShadowsH σ name l
    | none => none
  else if isStrH t "ForStatement" then
    let initv ← hGet σ node "init"
    if truthyH initv then
      let it ← hGet σ initv "type"
      if isStrH it "VariableDeclaration" then
        let ds ← hGet σ initv "declarations"
        match hAsArr σ ds with
        | some l => declListShadowsH σ name l
        | none => none
      else return false
    else return false
  else return false

/-- Heap-level `inAst.body.forEach` shadow scan (read-only). -/
def scanShadowH (σ : Store) (name : String) : List HVal → Option Bool
  | [] => some false
  | n :: rest => do
      let b ← stmtShadowsH σ name n
      let r ← scanShadowH σ name rest
      return b || r

/-- Index-keyed heap object fields, for the array-into-object rebuild. -/
def hIndexFields (vs : List HVal) : List (String × HVal) :=
  vs.enum.map fun p => (toString p.1, p.2)

/-- Character fields of a string that reached the `Object.keys` reduce. -/
def hCharFields (s : String) : List (String × HVal) :=
  hIndexFields (s.toList.map fun c => HVal.str (String.singleton c))

/-- Left-to-right store-threading walk over a list, the shape shared by the
reduce and the `value.map` loops of the store-level model. -/
def stThread {α β : Type} (f : Store → α → Option (Store × β)) :
    Store → List α → Option (Store × List β)
  | σ, [] => some (σ, [])
  | σ, x :: rest =>
      match f σ x with
      | none => none
      | some (σ1, y) =>
          match stThread f σ1 rest with
          | none => none
          | some (σ2, ys) => some (σ2, y :: ys)

/-- The store-level per-value rule of the `Object.keys` reduce, abstracted
over the recursive call `recv`: an array value is mapped into a freshly
allocated array, an object value recurses, scalars (and `null` and
`undefined` field values) are copied as-is. -/
def hPerValue (recv : Store → HVal → Option (Store × HVal)) (σ0 : Store) (v : HVal) :
    Option (Store × HVal) :=
  match hAsArr σ0 v with
  | some elems =>
      match stThread recv σ0 elems with
      | none => none
      | some (σ1, elems2) => some (σ1 ++ [HCell.arr elems2], HVal.ref σ1.length)
  | none =>
      match v with
      | HVal.ref r =>
          match σ0.get? r with
          | some (HCell.obj _) => recv σ0 v
          | _ => none
      | x => some (σ0, x)

/-- The store-level per-field rule: the per-value rule keeping the key. -/
def hPerField (recv : Store → HVal → Option (Store × HVal)) (σ0 : Store)
    (p : String × HVal) : Option (Store × (String × HVal)) :=
  match hPerValue recv σ0 p.2 with
  | none => none
  | some (σ1, v2) => some (σ1, (p.1, v2))

/-- Store-passing embedding of `replaceIdentifier`: identical control flow
to the value-level `replaceIdentifier`, but every JavaScript object lives in
the store and every value the source allocates (`newAst`, the `value.map`
result arrays) is appended as a fresh cell.  The source never assigns into
an existing object: a matched identifier returns the replacement reference,
a shadowed subtree returns the input reference, and the reduce builds only
fresh cells.  Fuel makes the heap recursion structural. -/
def replaceIdentifierH : Nat → Store → String → HVal → HVal → Option (Store × HVal)
  | 0, _, _, _, _ => none
  | fuel + 1, σ, name, withRef, inv =>
    let pvH : Store → HVal → Option (Store × HVal) :=
      hPerValue (fun σa e => replaceIdentifierH fuel σa name withRef e)
    let pvFd : Store → (String × HVal) → Option (Store × (String × HVal)) :=
      hPerField (fun σa e => replaceIdentifierH fuel σa name withRef e)
    match inv with
    | HVal.ref r =>
        match σ.get? r with
        | none => none
        | some (HCell.obj fields) =>
            if isStrH (hGetFd fields "type") "Identifier" &&
                isStrH (hGetFd fields "name") name then
              some (σ, withRef)
            else
              match hAsArr σ (hGetFd fields "body") with
              | some stmts =>
                  match scanShadowH σ name stmts with
                  | none => none
                  | some true => some (σ, inv)
                  | some false =>
                      match stThread pvFd σ fields with
                      | none => none
                      | some (σ2, fields2) =>
                          some (σ2 ++ [HCell.obj fields2], HVal.ref σ2.length)
              | none =>
                  match stThread pvFd σ fields with
                  | none => none
                  | some (σ2, fields2) =>
                      some (σ2 ++ [HCell.obj fields2], HVal.ref σ2.length)
        | some (HCell.arr elems) =>
            match stThread pvH σ elems with
            | none => none
            | some (σ2, vs) =>
                some (σ2 ++ [HCell.obj (hIndexFields vs)], HVal.ref σ2.length)
    | HVal.null => none
    | HVal.undef => none
    | HVal.bool _ => some (σ ++ [HCell.obj []], HVal.ref σ.length)
    | HVal.num _ => some (σ ++ [HCell.obj []], HVal.ref σ.length)
    | HVal.str s => some (σ ++ [HCell.obj (hCharFields s)], HVal.ref σ.length)

/-- An esprima `Identifier` node. -/
def mkIdent (s : String) : JVal :=
  JVal.obj [("type", JVal.str "Identifier"), ("name", JVal.str s)]

/-- An esprima numeric `Literal` node. -/
def mkLiteral (n : Int) (raw : String) : JVal :=
  JVal.obj [("type", JVal.str "Literal"), ("value", JVal.num n), ("raw", JVal.str raw)]

/-- An esprima `BinaryExpression` node. -/
def mkBinary (op : String) (l r : JVal) : JVal :=
  JVal.obj [("type", JVal.str "BinaryExpression"), ("operator", JVal.str op),
    ("left", l), ("right", r)]

/-- An esprima `ReturnStatement` node. -/
def mkReturn (arg : JVal) : JVal :=
  JVal.obj [("type", JVal.str "ReturnStatement"), ("argument", arg)]

/-- An esprima `BlockStatement` node. -/
def mkBlock (stmts : List JVal) : JVal :=
  JVal.obj [("type", JVal.str "BlockStatement"), ("body", JVal.arr stmts)]

/-- An esprima `FunctionDeclaration` node. -/
def mkFunctionDecl (name : String) (params : List JVal) (body : JVal) : JVal :=
  JVal.obj [("type", JVal.str "FunctionDeclaration"), ("id", mkIdent name),
    ("params", JVal.arr params), ("body", body), ("generator", JVal.bool false),
    ("expression", JVal.bool false), ("async", JVal.bool false)]

/-- An esprima anonymous `FunctionExpression` node. -/
def mkFunctionExpr (params : List JVal) (body : JVal) : JVal :=
  JVal.obj [("type", JVal.str "FunctionExpression"), ("id", JVal.null),
    ("params", JVal.arr params), ("body", body), ("generator", JVal.bool false),
    ("expression", JVal.bool false), ("async", JVal.bool false)]

/-- An esprima `VariableDeclarator` node. -/
def mkDeclarator (name : String) (initv : JVal) : JVal :=
  JVal.obj [("type", JVal.str "VariableDeclarator"), ("id", mkIdent name), ("init", initv)]

/-- An esprima `VariableDeclaration` statement. -/
def mkVarDecl (declarators : List JVal) : JVal :=
  JVal.obj [("type", JVal.str "VariableDeclaration"),
    ("declarations", JVal.arr declarators), ("kind", JVal.str "var")]

/-- An esprima `ForStatement` node. -/
def mkForStmt (initv test update body : JVal) : JVal :=
  JVal.obj [("type", JVal.str "ForStatement"), ("init", initv), ("test", test),
    ("update", update), ("body", body)]

/-- An esprima `ExpressionStatement` node. -/
def mkExprStmt (e : JVal) : JVal :=
  JVal.obj [("type", JVal.str "ExpressionStatement"), ("expression", e)]

/-- An esprima `CallExpression` node. -/
def mkCall (callee : JVal) (args : List JVal) : JVal :=
  JVal.obj [("type", JVal.str "CallExpression"), ("callee", callee),
    ("arguments", JVal.arr args)]

/-- An esprima module `Program` node. -/
def mkProgram (stmts : List JVal) : JVal :=
  JVal.obj [("type", JVal.str "Program"), ("body", JVal.arr stmts),
    ("sourceType", JVal.str "module")]

/-- An esprima `ExportNamedDeclaration` wrapping a declaration. -/
def mkExportNamedFn (decl : JVal) : JVal :=
  JVal.obj [("type", JVal.str "ExportNamedDeclaration"), ("declaration", decl),
    ("specifiers", JVal.arr []), ("source", JVal.null)]

/-- An esprima object-literal `Property` with a plain identifier key. -/
def mkProp (k : String) (v : JVal) : JVal :=
  JVal.obj [("type", JVal.str "Property"), ("key", mkIdent k),
    ("computed", JVal.bool false), ("value", v), ("kind", JVal.str "init"),
    ("method", JVal.bool false), ("shorthand", JVal.bool false)]

/-- The `module.exports = { ... }` statement as esprima parses it. -/
def mkModuleExports (props : List (String × JVal)) : JVal :=
  mkExprStmt (JVal.obj [("type", JVal.str "AssignmentExpression"),
    ("operator", JVal.str "="),
    ("left", JVal.obj [("type", JVal.str "MemberExpression"),
      ("computed", JVal.bool false), ("object", mkIdent "module"),
      ("property", mkIdent "exports")]),
    ("right", JVal.obj [("type", JVal.str "ObjectExpression"),
      ("properties", JVal.arr (props.map fun p => mkProp p.1 p.2))])])

/-- Claim-side reading of "a variable declarator declaring the substituted
name": the declarator's `id.name` equals the name. -/
def declaresName (name : String) (d : JVal) : Bool :=
  match d with
  | JVal.obj dfs =>
      match getFd dfs "id" with
      | JVal.obj idfs => isStr (getFd idfs "name") name
      | _ => false
  | _ => false

/-- Claim-side reading of "a statement that shadows the name": a variable
declaration with a declarator declaring it, or a for-statement whose
initializer is such a variable declaration. -/
def shadowsName (name : String) (stmt : JVal) : Bool :=
  match stmt with
  | JVal.obj fs =>
      (isStr (getFd fs "type") "VariableDeclaration" &&
        (match getFd fs "declarations" with
         | JVal.arr ds => ds.any (declaresName name)
         | _ => false)) ||
      (isStr (getFd fs "type") "ForStatement" &&
        (match getFd fs "init" with
         | JVal.obj infs =>
             isStr (getFd infs "type") "VariableDeclaration" &&
             (match getFd infs "declarations" with
              | JVal.arr ds => ds.any (declaresName name)
              | _ => false)
         | _ => false))
  | _ => false

theorem declListShadows_true_of_mem (name : String) :
    ∀ (ds : List JVal) (b : Bool), declListShadows name ds = some b →
      (∃ d ∈ ds, declaresName name d = true) → b = true := by
  intro ds
  induction ds with
  | nil => intro b _ hex; simp at hex
  | cons d rest ih =>
      intro b h hex
      simp only [declListShadows] at h
      rcases hex with ⟨d0, hd0, hdec⟩
      rcases List.mem_cons.mp hd0 with rfl | hmem
      · cases d0 with
        | obj dfs =>
            cases hid : getFd dfs "id" with
            | obj idfs =>
                simp only [declaresName, hid] at hdec
                simp only [jsGet, hid] at h
                cases hrest : declListShadows name rest with
                | none => rw [hrest] at h; exact Option.noConfusion h
                | some r =>
                    rw [hrest] at h
                    simp only [Option.some.injEq] at h
                    rw [← h, hdec]
                    simp
            | _ => simp [declaresName, hid] at hdec
        | _ => simp [declaresName] at hdec
      · -- the witness declarator sits in the tail
        split at h
        · exact Option.noConfusion h
        · split at h
          · exact Option.noConfusion h
          · split at h
            · exact Option.noConfusion h
            · next r hrest =>
                simp only [Option.some.injEq] at h
                have := ih r hrest ⟨d0, hmem, hdec⟩
                rw [← h, this]
                simp

theorem isStr_eq_true (v : JVal) (t : String) : isStr v t = true ↔ v = JVal.str t := by
  cases v <;> simp [isStr]

theorem stmtShadows_true_of_shadowsName (name : String) (s : JVal) (b : Bool)
    (h : stmtShadows name s = some b) (hs : shadowsName name s = true) : b = true := by
  cases s with
  | obj fs =>
      simp only [shadowsName, Bool.or_eq_true, Bool.and_eq_true] at hs
      rcases hs with ⟨htype, hdecls⟩ | ⟨htype, hinit⟩
      · -- variable declaration in place
        have ht := (isStr_eq_true _ _).mp htype
        cases hds : getFd fs "declarations" with
        | arr ds =>
            rw [hds] at hdecls
            simp only [stmtShadows, jsGet, ht, hds, isStr] at h
            simp only [show (("VariableDeclaration" : String) == "VariableDeclaration") = true
              from by simp, if_true] at h
            exact declListShadows_true_of_mem name ds b h (by simpa using hdecls)
        | _ => rw [hds] at hdecls; simp at hdecls
      · -- for-statement initializer
        have ht := (isStr_eq_true _ _).mp htype
        cases hin : getFd fs "init" with
        | obj infs =>
            rw [hin] at hinit
            simp only [Bool.and_eq_true] at hinit
            rcases hinit with ⟨hit, hids⟩
            have hitEq := (isStr_eq_true _ _).mp hit
            cases hds : getFd infs "declarations" with
            | arr ds =>
                rw [hds] at hids
                simp only [stmtShadows, jsGet, ht, hin, hitEq, hds, truthy, isStr] at h
                simp only [show (("ForStatement" : String) == "VariableDeclaration") = false
                    from by simp,
                  show (("ForStatement" : String) == "ForStatement") = true from by simp,
                  show (("VariableDeclaration" : String) == "VariableDeclaration") = true
                    from by simp,
                  if_true, if_false, Bool.false_eq_true] at h
                exact declListShadows_true_of_mem name ds b h (by simpa using hids)
            | _ => rw [hds] at hids; simp at hids
        | _ => rw [hin] at hinit; simp at hinit
  | _ => simp [shadowsName] at hs

theorem scanShadow_true_of_mem (name : String) :
    ∀ (stmts : List JVal) (b : Bool), scanShadow name stmts = some b →
      (∃ s ∈ stmts, shadowsName name s = true) → b = true := by
  intro stmts
  induction stmts with
  | nil => intro b _ hex; simp at hex
  | cons s rest ih =>
      intro b h hex
      simp only [scanShadow] at h
      rcases hex with ⟨s0, hs0, hsh⟩
      split at h
      · exact Option.noConfusion h
      · next b0 hb0 =>
          split at h
          · exact Option.noConfusion h
          · next r hr =>
              simp only [Option.some.injEq] at h
              rcases List.mem_cons.mp hs0 with rfl | hmem
              · rw [← h, stmtShadows_true_of_shadowsName name s0 b0 hb0 hsh]
                simp
              · rw [← h, ih r hr ⟨s0, hmem, hsh⟩]
                simp

/-- C1: for every block-like node (a node whose `body` field is an ordered
statement list, hence not an identifier node), if that list contains a
variable declaration declaring the substituted name, or a for-statement
whose initializer is a variable declaration declaring that name, then
`replaceIdentifier` returns the node's subtree unchanged: no occurrence of
the name anywhere inside it is replaced.  The completed-scan hypothesis
rules out statement lists on which the JavaScript scan itself would throw;
every esprima statement list satisfies it. -/
theorem C1_shadowed_block_unchanged (fuel : Nat) (name : String) (withAst : JVal)
    (fields : List (String × JVal)) (stmts : List JVal)
    (hident : (isStr (getFd fields "type") "Identifier" &&
               isStr (getFd fields "name") name) = false)
    (hbody : getFd fields "body" = JVal.arr stmts)
    (hshadow : ∃ s ∈ stmts, shadowsName name s = true)
    (hscan : scanShadow name stmts ≠ none) :
    replaceIdentifier (fuel + 1) name withAst (JVal.obj fields) = some (JVal.obj fields) := by
  cases hb : scanShadow name stmts with
  | none => exact absurd hb hscan
  | some b =>
      have hbt := scanShadow_true_of_mem name stmts b hb hshadow
      subst hbt
      simp [replaceIdentifier, hident, hbody, hb]

/-- The shadowed block of the spec's example, as esprima parses
a block whose statements are `var x = 5; return x * 2;`. -/
def shadowBlockC1 : JVal :=
  mkBlock [mkVarDecl [mkDeclarator "x" (mkLiteral 5 "5")],
    mkReturn (mkBinary "*" (mkIdent "x") (mkLiteral 2 "2"))]

/-- Witness for C1: substituting `x` inside the shadowed block leaves the
block unchanged. -/
theorem C1_shadowed_block_unchanged_witness :
    replaceIdentifier 10 "x" (mkIdent "y") shadowBlockC1 = some shadowBlockC1 :=
  C1_shadowed_block_unchanged 9 "x" (mkIdent "y")
    [("type", JVal.str "BlockStatement"),
     ("body", JVal.arr [mkVarDecl [mkDeclarator "x" (mkLiteral 5 "5")],
       mkReturn (mkBinary "*" (mkIdent "x") (mkLiteral 2 "2"))])]
    [mkVarDecl [mkDeclarator "x" (mkLiteral 5 "5")],
     mkReturn (mkBinary "*" (mkIdent "x") (mkLiteral 2 "2"))]
    (by rfl) (by rfl)
    ⟨mkVarDecl [mkDeclarator "x" (mkLiteral 5 "5")], by simp, by rfl⟩
    (by decide)

/-- The argument subtree `(a+1)` as esprima parses it (parentheses leave no
node). -/
def exprAplus1 : JVal := mkBinary "+" (mkIdent "a") (mkLiteral 1 "1")

/-- A function `function f(x) { return x * 2; }`. -/
def fnReturnX2 : JVal :=
  mkFunctionDecl "f" [mkIdent "x"]
    (mkBlock [mkReturn (mkBinary "*" (mkIdent "x") (mkLiteral 2 "2"))])

/-- The same function after substituting `(a+1)` for `x` (the parameter
occurrence in the parameter list is rewritten too, as the source does). -/
def fnReturnX2sub : JVal :=
  mkFunctionDecl "f" [exprAplus1]
    (mkBlock [mkReturn (mkBinary "*" exprAplus1 (mkLiteral 2 "2"))])

/-- C2: a matching identifier node is replaced by the replacement subtree
itself (no recursion into it); a non-matching, non-block node is rebuilt by
recursing into each child field, where array fields map the substitution
over their elements and scalar fields are copied; substituting `(a+1)` for
parameter `x` in `return x*2;` produces exactly the `(a+1)*2` tree, which
the renderer then emits as the generated text of that expression. -/
theorem C2_identifier_substitution :
    (∀ (fuel : Nat) (name : String) (withAst : JVal) (fields : List (String × JVal)),
        isStr (getFd fields "type") "Identifier" = true →
        isStr (getFd fields "name") name = true →
        replaceIdentifier (fuel + 1) name withAst (JVal.obj fields) = some withAst) ∧
    (∀ (fuel : Nat) (name : String) (withAst : JVal) (fields : List (String × JVal)),
        (isStr (getFd fields "type") "Identifier" &&
          isStr (getFd fields "name") name) = false →
        (∀ l, getFd fields "body" ≠ JVal.arr l) →
        replaceIdentifier (fuel + 1) name withAst (JVal.obj fields) =
          (replaceFields fuel name withAst fields).map JVal.obj) ∧
    (∀ (fuel : Nat) (name : String) (withAst : JVal) (xs : List JVal),
        replaceValue fuel name withAst (JVal.arr xs) =
          (xs.mapM (replaceIdentifier fuel name withAst)).map JVal.arr) ∧
    (∀ (fuel : Nat) (name : String) (withAst : JVal) (v : JVal),
        (∀ fs, v ≠ JVal.obj fs) → (∀ l, v ≠ JVal.arr l) →
        replaceValue fuel name withAst v = some v) ∧
    ((replaceIdentifier 10 "x" exprAplus1 fnReturnX2 = some fnReturnX2sub) ∧
      ∀ gen, JIL.renderFunction gen fnReturnX2sub =
        some (gen (mkBinary "*" exprAplus1 (mkLiteral 2 "2")))) := by
  refine ⟨?_, ?_, ?_, ?_, ?_, ?_⟩
  · intro fuel name withAst fields h1 h2
    simp [replaceIdentifier, h1, h2]
  · intro fuel name withAst fields hident hnb
    cases hb : getFd fields "body" with
    | arr l => exact absurd hb (hnb l)
    | undef => simp [replaceIdentifier, hident, hb, replaceFields, replaceValue]
    | null => simp [replaceIdentifier, hident, hb, replaceFields, replaceValue]
    | bool b => simp [replaceIdentifier, hident, hb, replaceFields, replaceValue]
    | str s => simp [replaceIdentifier, hident, hb, replaceFields, replaceValue]
    | num n => simp [replaceIdentifier, hident, hb, replaceFields, replaceValue]
    | obj fs => simp [replaceIdentifier, hident, hb, replaceFields, replaceValue]
  · intro fuel name withAst xs
    rfl
  · intro fuel name withAst v hno hna
    cases v with
    | obj fs => exact absurd rfl (hno fs)
    | arr l => exact absurd rfl (hna l)
    | undef => rfl
    | null => rfl
    | bool b => rfl
    | str s => rfl
    | num n => rfl
  · rfl
  · intro gen
    rfl

/-- Witness for C2: the identifier case and the recursion case at concrete
inputs. -/
theorem C2_identifier_substitution_witness :
    replaceIdentifier 6 "x" (mkLiteral 9 "9") (mkIdent "x") = some (mkLiteral 9 "9") ∧
    replaceIdentifier 6 "x" (mkLiteral 9 "9") (mkReturn (mkIdent "x")) =
      (replaceFields 5 "x" (mkLiteral 9 "9")
        [("type", JVal.str "ReturnStatement"), ("argument", mkIdent "x")]).map JVal.obj :=
  ⟨C2_identifier_substitution.1 5 "x" (mkLiteral 9 "9")
      [("type", JVal.str "Identifier"), ("name", JVal.str "x")] (by rfl) (by rfl),
   C2_identifier_substitution.2.1 5 "x" (mkLiteral 9 "9")
      [("type", JVal.str "ReturnStatement"), ("argument", mkIdent "x")] (by rfl)
      (fun l h => JVal.noConfusion h)⟩

/-- A nested anonymous function whose own parameter carries the substituted
name: `function (x) { return x; }`. -/
def fnNestedParamX : JVal := mkFunctionExpr [mkIdent "x"] (mkBlock [mkReturn (mkIdent "x")])

/-- C10: only variable declarations and for-loop initializer declarations
block substitution — a statement list whose statements are of any other
kind never marks the name shadowed — and substituting into a nested
function expression whose formal parameter is the substituted name rewrites
every occurrence, the parameter identifier itself included. -/
theorem C10_params_never_shadow :
    (∀ (name : String) (stmts : List JVal),
        (∀ s ∈ stmts, ∃ ts, jsGet s "type" = some (JVal.str ts) ∧
          ts ≠ "VariableDeclaration" ∧ ts ≠ "ForStatement") →
        scanShadow name stmts = some false) ∧
    (∀ withAst : JVal,
        replaceIdentifier 10 "x" withAst fnNestedParamX =
          some (mkFunctionExpr [withAst] (mkBlock [mkReturn withAst]))) := by
  constructor
  · intro name stmts
    induction stmts with
    | nil => intro _; rfl
    | cons s rest ih =>
        intro hall
        rcases hall s (List.mem_cons_self s rest) with ⟨ts, hty, hv, hf⟩
        have hrest := ih (fun s2 hs2 => hall s2 (List.mem_cons_of_mem s hs2))
        simp only [scanShadow, stmtShadows, hty, hrest]
        simp [isStr, hv, hf]
  · intro withAst
    rfl

/-- A concrete stand-in for the external code generator. -/
def genConst : JVal → String := fun _ => "<generated>"

/-- A function with an empty body: `function f() { }`. -/
def fnEmptyBody : JVal := mkFunctionDecl "f" [] (mkBlock [])

/-- C3 counterexample: on an empty body, the `function-inline-loader.js`
renderer does not return empty text — it reads `body.body[0].type`, a
property of `undefined`, and throws (modelled as `none`). -/
theorem C3_counterexample_empty_body_throws :
    FIL.renderFunction genConst fnEmptyBody = none ∧
    FIL.renderFunction genConst fnEmptyBody ≠ some "" :=
  ⟨rfl, fun h => Option.noConfusion h⟩

/-- C3 amended: the `js-inline-loader.js` renderer returns empty text on an
empty body, the returned expression's text when the first statement is a
return (statements after it discarded), and the whole statement list as a
program fragment otherwise; the `function-inline-loader.js` variant throws
on the empty body and agrees on the other two cases. -/
theorem C3_render_cases :
    (∀ (gen : JVal → String) (fnFields blockFields : List (String × JVal)),
        getFd fnFields "body" = JVal.obj blockFields →
        getFd blockFields "body" = JVal.arr [] →
        JIL.renderFunction gen (JVal.obj fnFields) = some "" ∧
        FIL.renderFunction gen (JVal.obj fnFields) = none) ∧
    (∀ (gen : JVal → String) (fnFields blockFields s0fields : List (String × JVal))
        (rest : List JVal),
        getFd fnFields "body" = JVal.obj blockFields →
        getFd blockFields "body" = JVal.arr (JVal.obj s0fields :: rest) →
        getFd s0fields "type" = JVal.str "ReturnStatement" →
        JIL.renderFunction gen (JVal.obj fnFields) = some (gen (getFd s0fields "argument")) ∧
        FIL.renderFunction gen (JVal.obj fnFields) = some (gen (getFd s0fields "argument"))) ∧
    (∀ (gen : JVal → String) (fnFields blockFields s0fields : List (String × JVal))
        (rest : List JVal) (t : String),
        getFd fnFields "body" = JVal.obj blockFields →
        getFd blockFields "body" = JVal.arr (JVal.obj s0fields :: rest) →
        getFd s0fields "type" = JVal.str t →
        t ≠ "ReturnStatement" →
        JIL.renderFunction gen (JVal.obj fnFields) =
          some (gen (JVal.obj [("type", JVal.str "Program"),
            ("body", JVal.arr (JVal.obj s0fields :: rest)),
            ("sourceType", JVal.str "script")])) ∧
        FIL.renderFunction gen (JVal.obj fnFields) =
          some (gen (JVal.obj [("type", JVal.str "Program"),
            ("body", JVal.arr (JVal.obj s0fields :: rest)),
            ("sourceType", JVal.str "script")]))) := by
  refine ⟨?_, ?_, ?_⟩
  · intro gen ff bf h1 h2
    constructor <;> simp [JIL.renderFunction, FIL.renderFunction, jsGet, h1, h2]
  · intro gen ff bf s0 rest h1 h2 h3
    constructor <;> simp [JIL.renderFunction, FIL.renderFunction, jsGet, h1, h2, h3, isStr]
  · intro gen ff bf s0 rest t h1 h2 h3 hne
    constructor <;>
      simp [JIL.renderFunction, FIL.renderFunction, jsGet, h1, h2, h3, isStr, hne]

/-- Witness for C3's amended statement, at an empty function and at a
single-return function. -/
theorem C3_render_cases_witness :
    (JIL.renderFunction genConst fnEmptyBody = some "" ∧
     FIL.renderFunction genConst fnEmptyBody = none) ∧
    (JIL.renderFunction genConst fnReturnX2 =
        some (genConst (mkBinary "*" (mkIdent "x") (mkLiteral 2 "2"))) ∧
     FIL.renderFunction genConst fnReturnX2 =
        some (genConst (mkBinary "*" (mkIdent "x") (mkLiteral 2 "2")))) :=
  ⟨C3_render_cases.1 genConst
      [("type", JVal.str "FunctionDeclaration"), ("id", mkIdent "f"),
       ("params", JVal.arr []), ("body", mkBlock []), ("generator", JVal.bool false),
       ("expression", JVal.bool false), ("async", JVal.bool false)]
      [("type", JVal.str "BlockStatement"), ("body", JVal.arr [])] (by rfl) (by rfl),
   C3_render_cases.2.1 genConst
      [("type", JVal.str "FunctionDeclaration"), ("id", mkIdent "f"),
       ("params", JVal.arr [mkIdent "x"]),
       ("body", mkBlock [mkReturn (mkBinary "*" (mkIdent "x") (mkLiteral 2 "2"))]),
       ("generator", JVal.bool false), ("expression", JVal.bool false),
       ("async", JVal.bool false)]
      [("type", JVal.str "BlockStatement"),
       ("body", JVal.arr [mkReturn (mkBinary "*" (mkIdent "x") (mkLiteral 2 "2"))])]
      [("type", JVal.str "ReturnStatement"),
       ("argument", mkBinary "*" (mkIdent "x") (mkLiteral 2 "2"))]
      [] (by rfl) (by rfl) (by rfl)⟩

/-- A module whose only top-level statement is the call `foo();`. -/
def moduleTopCall : JVal := mkProgram [mkExprStmt (mkCall (mkIdent "foo") [])]

/-- A module whose only top-level statement is `var x;` (declarator without
initializer, so `init` is `null`). -/
def moduleTopVarNoInit : JVal := mkProgram [mkVarDecl [mkDeclarator "x" JVal.null]]

/-- A module whose only top-level statement is an import declaration. -/
def moduleTopImport : JVal := mkProgram [JVal.obj
  [("type", JVal.str "ImportDeclaration"), ("specifiers", JVal.arr []),
   ("source", JVal.obj [("type", JVal.str "Literal"), ("value", JVal.str "m"),
     ("raw", JVal.str "m")])]]

/-- A module whose only top-level statement assigns to a plain variable. -/
def moduleTopAssign : JVal := mkProgram [mkExprStmt (JVal.obj
  [("type", JVal.str "AssignmentExpression"), ("operator", JVal.str "="),
   ("left", mkIdent "y"), ("right", mkLiteral 1 "1")])]

/-- C6: the resolver's fall-through does ignore statement shapes whose reads
succeed (imports, plain assignments, an empty module), but an expression
statement that is not assignment-like (`foo();`) makes it read
`node.expression.left.type`, a property of `undefined`, and an
initializer-less declarator (`var x;`) makes it read `node.init.type`, a
property of `null` — both throw instead of being ignored. -/
theorem C6_resolver_throws_on_benign_statements :
    getExportedFunctions moduleTopCall = none ∧
    getExportedFunctions moduleTopVarNoInit = none ∧
    getExportedFunctions moduleTopImport = some [] ∧
    getExportedFunctions moduleTopAssign = some [] ∧
    getExportedFunctions (mkProgram []) = some [] :=
  ⟨rfl, rfl, rfl, rfl, rfl⟩

/-- C7: resolving a module that declares a function and re-exports it
through a `module.exports` bag property yields exactly the exported
entries: under the identical key the entry is marked exported with its body
unaltered, under a different key the same body is retrievable under the new
key, and the never-exported original entry is absent. -/
theorem C7_export_bag_marks_and_renames (fname gname : String) (params : List JVal)
    (body : JVal) :
    getExportedFunctions (mkProgram
      [mkFunctionDecl fname params body,
       mkModuleExports [(gname, mkIdent fname)]]) =
      some [(gname, mkFunctionDecl fname params body)] := by
  by_cases h : gname = fname
  · subst h
    simp [getExportedFunctions, mkProgram, mkFunctionDecl, mkModuleExports, mkExprStmt,
      mkProp, mkIdent, foldTopStmts, processTopStmt, bagPropsFold, jsGet, getFd, isStr,
      setKey, getKey?, markExported]
  · simp [getExportedFunctions, mkProgram, mkFunctionDecl, mkModuleExports, mkExprStmt,
      mkProp, mkIdent, foldTopStmts, processTopStmt, bagPropsFold, jsGet, getFd, isStr,
      setKey, getKey?, markExported, h, Ne.symm h]

/-- C4 amended: in the regex-sweep driver (`function-inline-loader.js`), a
macro site whose supplied argument count differs from the resolved
function's declared parameter count gets a diagnostic and a placeholder
comment, and the sweep expands every other site independently of it.  (The
iterative driver performs no such check; see the counterexample.) -/
theorem C4_arity_mismatch_placeholder :
    (∀ (ext : LoaderExt) (fuel : Nat) (context : String) (extensions : List String)
        (site : FIL.MacroSite) (contents : String) (ast : JVal)
        (exportedFn : List (String × JVal)) (fnAst : JVal) (fnArgs params : List JVal),
        loadModuleContents ext (ext.resolvePath context site.gFile) extensions =
          some contents →
        ext.parse contents = Except.ok ast →
        getExportedFunctions ast = some exportedFn →
        (exportedFn.find? (fun p => p.1 == site.gFunction)).map (fun p => p.2) =
          some fnAst →
        compileArgumentAst ext site.gArgs = some fnArgs →
        jsGet fnAst "params" = some (JVal.arr params) →
        fnArgs.length ≠ params.length →
        FIL.expandSite ext fuel context extensions site =
          some (SiteResult.mk ("/* Invalid syntax for " ++ site.gFunction ++ " */")
            ["Function " ++ site.gFunction ++ " is expecting exactly " ++
             toString params.length ++ " arguments, but got " ++ toString fnArgs.length]
            [ext.resolvePath context site.gFile])) ∧
    (∀ (ext : LoaderExt) (fuel : Nat) (context : String) (extensions : List String)
        (pre post : List FIL.MacroSite) (s : FIL.MacroSite) (r : SiteResult)
        (rs1 rs2 : List SiteResult),
        FIL.expandSite ext fuel context extensions s = some r →
        FIL.transformSites ext fuel context extensions pre = some rs1 →
        FIL.transformSites ext fuel context extensions post = some rs2 →
        FIL.transformSites ext fuel context extensions (pre ++ s :: post) =
          some (rs1 ++ r :: rs2)) := by
  constructor
  · intro ext fuel context extensions site contents ast exportedFn fnAst fnArgs params
      h1 h2 h3 h4 h5 h6 h7
    simp [FIL.expandSite, h1, h2, h3, h4, h5, h6, h7]
  · intro ext fuel context extensions pre
    induction pre with
    | nil =>
        intro post s r rs1 rs2 hs hpre hpost
        simp only [FIL.transformSites] at hpre
        simp only [Option.some.injEq] at hpre
        subst hpre
        simp [FIL.transformSites, hs, hpost]
    | cons p prest ih =>
        intro post s r rs1 rs2 hs hpre hpost
        simp only [FIL.transformSites] at hpre
        split at hpre
        · exact Option.noConfusion hpre
        · next r0 hr0 =>
            split at hpre
            · exact Option.noConfusion hpre
            · next rs0 hrs0 =>
                simp only [Option.some.injEq] at hpre
                subst hpre
                have := ih post s r rs0 rs2 hs hrs0 hpost
                simp [FIL.transformSites, hr0, this]

/-- Target module for the arity experiments: exports
`function f(a, b, c) { return a; }` and `function g() { return 1; }`. -/
def modAstArity : JVal := mkProgram
  [mkExportNamedFn (mkFunctionDecl "f" [mkIdent "a", mkIdent "b", mkIdent "c"]
     (mkBlock [mkReturn (mkIdent "a")])),
   mkExportNamedFn (mkFunctionDecl "g" [] (mkBlock [mkReturn (mkLiteral 1 "1")]))]

/-- The parse of `X(p,q)`, as `compileArgumentAst` produces it. -/
def xCallPQ : JVal := mkProgram [mkExprStmt (mkCall (mkIdent "X") [mkIdent "p", mkIdent "q"])]

/-- The parse of `X()`. -/
def xCallEmpty : JVal := mkProgram [mkExprStmt (mkCall (mkIdent "X") [])]

/-- Concrete external environment for the arity experiments. -/
def extArity : LoaderExt :=
  { readFile := fun p => if p == "ctx/mod" then some "mod-src" else none
  , parse := fun s =>
      if s == "mod-src" then Except.ok modAstArity
      else if s == "X(p,q)" then Except.ok xCallPQ
      else if s == "X()" then Except.ok xCallEmpty
      else Except.error "SyntaxError"
  , gen := genConst
  , resolvePath := fun c m => c ++ "/" ++ m }

/-- C4 counterexample: the iterative driver's `getFunctionCode` has no arity
check.  Supplying 2 arguments to the 3-parameter function `f` emits no
diagnostic and substitutes no placeholder: the site expands to the rendered
(partially substituted) body with an empty diagnostic list. -/
theorem C4_counterexample_no_arity_check_in_iterative_driver :
    JIL.getFunctionCode extArity 10 "ctx" ["", ".js"] "mod" "f"
      [mkIdent "p", mkIdent "q"] =
      some (SiteResult.mk "<generated>" [] ["ctx/mod"]) := by rfl

/-- The arity-mismatch macro site `%inline('mod').f(p,q);`. -/
def siteBadArity : FIL.MacroSite :=
  { gIndent := "", gAssignExpr := none, gFile := "mod", gFunction := "f", gArgs := "p,q" }

/-- A well-formed macro site `  %inline('mod').g();`. -/
def siteGoodArity : FIL.MacroSite :=
  { gIndent := "  ", gAssignExpr := none, gFile := "mod", gFunction := "g", gArgs := "" }

/-- Witness for C4: the sweep driver flags the arity mismatch with the exact
placeholder and diagnostic, and the neighbouring well-formed site still
expands. -/
theorem C4_arity_mismatch_placeholder_witness :
    FIL.expandSite extArity 10 "ctx" ["", ".js"] siteBadArity =
      some (SiteResult.mk "/* Invalid syntax for f */"
        ["Function f is expecting exactly 3 arguments, but got 2"] ["ctx/mod"]) ∧
    FIL.transformSites extArity 10 "ctx" ["", ".js"] [siteGoodArity, siteBadArity] =
      some [SiteResult.mk "  <generated>" [] ["ctx/mod"],
            SiteResult.mk "/* Invalid syntax for f */"
              ["Function f is expecting exactly 3 arguments, but got 2"] ["ctx/mod"]] := by
  have hbad := C4_arity_mismatch_placeholder.1 extArity 10 "ctx" ["", ".js"] siteBadArity
    "mod-src" modAstArity
    [("f", mkFunctionDecl "f" [mkIdent "a", mkIdent "b", mkIdent "c"]
       (mkBlock [mkReturn (mkIdent "a")])),
     ("g", mkFunctionDecl "g" [] (mkBlock [mkReturn (mkLiteral 1 "1")]))]
    (mkFunctionDecl "f" [mkIdent "a", mkIdent "b", mkIdent "c"]
       (mkBlock [mkReturn (mkIdent "a")]))
    [mkIdent "p", mkIdent "q"] [mkIdent "a", mkIdent "b", mkIdent "c"]
    (by rfl) (by rfl) (by rfl) (by rfl) (by rfl) (by rfl) (by decide)
  refine ⟨hbad, ?_⟩
  exact C4_arity_mismatch_placeholder.2 extArity 10 "ctx" ["", ".js"]
    [siteGoodArity] [] siteBadArity _ [SiteResult.mk "  <generated>" [] ["ctx/mod"]] []
    hbad (by rfl) (by rfl)

/-- C5 amended: in the iterative driver (`js-inline-loader.js`), a missing
target module, an unparseable target module and an unknown function name
each emit one diagnostic and substitute a visible placeholder comment
instead of raising, so the driver's loop goes on splicing.  (The sweep
driver of `function-inline-loader.js` only handles the unknown-function
case this way; a missing or unparseable module raises and aborts the whole
file — see the counterexample.) -/
theorem C5_resolution_failures_placeholder :
    (∀ (ext : LoaderExt) (fuel : Nat) (context : String) (extensions : List String)
        (gModule gFunction : String) (fnArgs : List JVal),
        loadModuleContents ext (ext.resolvePath context gModule) extensions = none →
        JIL.getFunctionCode ext fuel context extensions gModule gFunction fnArgs =
          some (SiteResult.mk ("/* Missing module " ++ gModule ++ " */")
            ["Could not find module `" ++ gModule ++ "`"] [])) ∧
    (∀ (ext : LoaderExt) (fuel : Nat) (context : String) (extensions : List String)
        (gModule gFunction : String) (fnArgs : List JVal) (contents e : String),
        loadModuleContents ext (ext.resolvePath context gModule) extensions =
          some contents →
        ext.parse contents = Except.error e →
        JIL.getFunctionCode ext fuel context extensions gModule gFunction fnArgs =
          some (SiteResult.mk ("/* Parsing error in module " ++ gModule ++ " */")
            ["%inline(\"" ++ gModule ++ "\"): " ++ e] [])) ∧
    (∀ (ext : LoaderExt) (fuel : Nat) (context : String) (extensions : List String)
        (gModule gFunction : String) (fnArgs : List JVal) (contents : String)
        (ast : JVal) (exportedFn : List (String × JVal)),
        loadModuleContents ext (ext.resolvePath context gModule) extensions =
          some contents →
        ext.parse contents = Except.ok ast →
        getExportedFunctions ast = some exportedFn →
        (exportedFn.find? (fun p => p.1 == gFunction)).map (fun p => p.2) = none →
        JIL.getFunctionCode ext fuel context extensions gModule gFunction fnArgs =
          some (SiteResult.mk ("/* Unknown inline " ++ gFunction ++ " */")
            ["%inline(\"" ++ gModule ++ "\"): Undefined function `" ++ gFunction]
            [ext.resolvePath context gModule])) := by
  refine ⟨?_, ?_, ?_⟩
  · intro ext fuel context extensions gModule gFunction fnArgs h1
    simp [JIL.getFunctionCode, h1]
  · intro ext fuel context extensions gModule gFunction fnArgs contents e h1 h2
    simp [JIL.getFunctionCode, h1, h2]
  · intro ext fuel context extensions gModule gFunction fnArgs contents ast exportedFn
      h1 h2 h3 h4
    simp [JIL.getFunctionCode, h1, h2, h3, h4]

/-- Target module for the failure experiments: exports
`function g() { return 1; }`. -/
def modAstOk : JVal := mkProgram
  [mkExportNamedFn (mkFunctionDecl "g" [] (mkBlock [mkReturn (mkLiteral 1 "1")]))]

/-- Concrete external environment: module `ok` resolves and parses, module
`bad` resolves but does not parse, and every other path is unreadable. -/
def extFailures : LoaderExt :=
  { readFile := fun p =>
      if p == "ctx/ok" then some "ok-src"
      else if p == "ctx/bad" then some "bad-src"
      else none
  , parse := fun s =>
      if s == "ok-src" then Except.ok modAstOk
      else if s == "X()" then Except.ok xCallEmpty
      else Except.error "boom"
  , gen := genConst
  , resolvePath := fun c m => c ++ "/" ++ m }

/-- The macro site `%inline('missing').g();` whose module does not resolve. -/
def siteMissing : FIL.MacroSite :=
  { gIndent := "", gAssignExpr := none, gFile := "missing", gFunction := "g", gArgs := "" }

/-- The well-formed macro site `%inline('ok').g();`. -/
def siteOk : FIL.MacroSite :=
  { gIndent := "", gAssignExpr := none, gFile := "ok", gFunction := "g", gArgs := "" }

/-- C5 counterexample: in the sweep driver a missing target module does not
produce a placeholder — `esprima.parse(null)` throws and nothing catches it
(`none`), and because the exception aborts the whole sweep, a following
well-formed site that expands fine on its own is never reached. -/
theorem C5_counterexample_missing_module_raises :
    FIL.expandSite extFailures 10 "ctx" ["", ".js"] siteMissing = none ∧
    FIL.expandSite extFailures 10 "ctx" ["", ".js"] siteOk =
      some (SiteResult.mk "<generated>" [] ["ctx/ok"]) ∧
    FIL.transformSites extFailures 10 "ctx" ["", ".js"] [siteMissing, siteOk] = none :=
  ⟨rfl, rfl, rfl⟩

/-- Witness for C5: the three placeholder cases of the iterative driver at
concrete inputs. -/
theorem C5_resolution_failures_placeholder_witness :
    JIL.getFunctionCode extFailures 10 "ctx" ["", ".js"] "missing" "g" [] =
      some (SiteResult.mk "/* Missing module missing */"
        ["Could not find module `missing`"] []) ∧
    JIL.getFunctionCode extFailures 10 "ctx" ["", ".js"] "bad" "g" [] =
      some (SiteResult.mk "/* Parsing error in module bad */"
        ["%inline(\"bad\"): boom"] []) ∧
    JIL.getFunctionCode extFailures 10 "ctx" ["", ".js"] "ok" "h" [] =
      some (SiteResult.mk "/* Unknown inline h */"
        ["%inline(\"ok\"): Undefined function `h"] ["ctx/ok"]) :=
  ⟨C5_resolution_failures_placeholder.1 extFailures 10 "ctx" ["", ".js"] "missing" "g" []
     (by rfl),
   C5_resolution_failures_placeholder.2.1 extFailures 10 "ctx" ["", ".js"] "bad" "g" []
     "bad-src" "boom" (by rfl) (by rfl),
   C5_resolution_failures_placeholder.2.2 extFailures 10 "ctx" ["", ".js"] "ok" "h" []
     "ok-src" modAstOk
     [("g", mkFunctionDecl "g" [] (mkBlock [mkReturn (mkLiteral 1 "1")]))]
     (by rfl) (by rfl) (by rfl) (by rfl)⟩

/-- C8: when the file being processed fails to parse, the iterative
re-parse driver emits one diagnostic carrying the parser's message and
returns its current source unchanged, whatever the callback and the
remaining fuel — fail-safe, not fail-fatal. -/
theorem C8_host_parse_failure_failsafe (ext : LoaderExt) (tokenFuel fuel : Nat)
    (callback : JVal → JVal → List JVal → Option (String × List String))
    (source e : String) (hparse : ext.parse source = Except.error e) :
    JIL.replaceInlineFunc ext tokenFuel callback (fuel + 1) source [] =
      some (source, ["Inline processing failed: SyntaxError: " ++ e]) := by
  simp [JIL.replaceInlineFunc, hparse]

/-- An external environment whose host parser always fails. -/
def extNoParse : LoaderExt :=
  { readFile := fun _ => none
  , parse := fun _ => Except.error "Unexpected token"
  , gen := genConst
  , resolvePath := fun c m => c ++ "/" ++ m }

/-- Witness for C8 on a concrete unparseable source. -/
theorem C8_host_parse_failure_failsafe_witness :
    JIL.replaceInlineFunc extNoParse 0 (fun _ _ _ => none) 1 "broken (" [] =
      some ("broken (", ["Inline processing failed: SyntaxError: Unexpected token"]) :=
  C8_host_parse_failure_failsafe extNoParse 0 0 (fun _ _ _ => none) "broken ("
    "Unexpected token" (by rfl)

theorem stThread_frame {α β : Type} (f : Store → α → Option (Store × β))
    (hf : ∀ σ x σ2 y, f σ x = some (σ2, y) → ∃ t, σ2 = σ ++ t) :
    ∀ (l : List α) (σ σ2 : Store) (ys : List β),
      stThread f σ l = some (σ2, ys) → ∃ t, σ2 = σ ++ t := by
  intro l
  induction l with
  | nil =>
      intro σ σ2 ys h
      simp only [stThread, Option.some.injEq, Prod.mk.injEq] at h
      exact ⟨[], by rw [← h.1]; simp⟩
  | cons x rest ih =>
      intro σ σ2 ys h
      simp only [stThread] at h
      split at h
      · exact Option.noConfusion h
      · next σ1 y hx =>
          split at h
          · exact Option.noConfusion h
          · next σ2b ysb hrest =>
              simp only [Option.some.injEq, Prod.mk.injEq] at h
              obtain ⟨t1, ht1⟩ := hf σ x σ1 y hx
              obtain ⟨t2, ht2⟩ := ih σ1 σ2b ysb hrest
              exact ⟨t1 ++ t2, by rw [← h.1, ht2, ht1, List.append_assoc]⟩

theorem hPerValue_frame (recv : Store → HVal → Option (Store × HVal))
    (hrec : ∀ σ x σ2 y, recv σ x = some (σ2, y) → ∃ t, σ2 = σ ++ t) :
    ∀ (σ : Store) (v : HVal) (σ2 : Store) (y : HVal),
      hPerValue recv σ v = some (σ2, y) → ∃ t, σ2 = σ ++ t := by
  intro σ v σ2 y h
  unfold hPerValue at h
  split at h
  · -- array value: map into a fresh array cell
    split at h
    · exact Option.noConfusion h
    · next σ1 elems2 hst =>
        simp only [Option.some.injEq, Prod.mk.injEq] at h
        obtain ⟨t, ht⟩ := stThread_frame recv hrec _ σ σ1 elems2 hst
        exact ⟨t ++ [HCell.arr elems2], by rw [← h.1, ht, List.append_assoc]⟩
  · -- non-array value
    split at h
    · -- reference
      split at h
      · exact hrec _ _ _ _ h
      · exact Option.noConfusion h
    · -- scalar copied in place
      simp only [Option.some.injEq, Prod.mk.injEq] at h
      exact ⟨[], by rw [← h.1]; simp⟩

theorem hPerField_frame (recv : Store → HVal → Option (Store × HVal))
    (hrec : ∀ σ x σ2 y, recv σ x = some (σ2, y) → ∃ t, σ2 = σ ++ t) :
    ∀ (σ : Store) (p : String × HVal) (σ2 : Store) (q : String × HVal),
      hPerField recv σ p = some (σ2, q) → ∃ t, σ2 = σ ++ t := by
  intro σ p σ2 q h
  unfold hPerField at h
  split at h
  · exact Option.noConfusion h
  · next σ1 v2 hv =>
      simp only [Option.some.injEq, Prod.mk.injEq] at h
      obtain ⟨t, ht⟩ := hPerValue_frame recv hrec σ p.2 σ1 v2 hv
      exact ⟨t, by rw [← h.1, ht]⟩

theorem replaceIdentifierH_extends : ∀ (fuel : Nat) (σ : Store) (name : String)
    (w v : HVal) (σ2 : Store) (r : HVal),
    replaceIdentifierH fuel σ name w v = some (σ2, r) → ∃ t, σ2 = σ ++ t := by
  intro fuel
  induction fuel with
  | zero => intro σ name w v σ2 r h; exact Option.noConfusion h
  | succ n ih =>
      intro σ name w v σ2 r h
      have hrec : ∀ σa x σb y, (fun σc e => replaceIdentifierH n σc name w e) σa x =
          some (σb, y) → ∃ t, σb = σa ++ t :=
        fun σa x σb y hx => ih σa name w x σb y hx
      simp only [replaceIdentifierH] at h
      split at h
      · -- reference input
        split at h
        · exact Option.noConfusion h
        · -- an object cell
          split at h
          · -- matching identifier: store untouched, replacement returned
            simp only [Option.some.injEq, Prod.mk.injEq] at h
            exact ⟨[], by rw [← h.1]; simp⟩
          · split at h
            · -- block-like: scan outcome decides
              split at h
              · exact Option.noConfusion h
              · simp only [Option.some.injEq, Prod.mk.injEq] at h
                exact ⟨[], by rw [← h.1]; simp⟩
              · split at h
                · exact Option.noConfusion h
                · next σ1 fields2 hst =>
                    simp only [Option.some.injEq, Prod.mk.injEq] at h
                    obtain ⟨t, ht⟩ := stThread_frame _ (hPerField_frame _ hrec) _ σ σ1
                      fields2 hst
                    exact ⟨t ++ [HCell.obj fields2],
                      by rw [← h.1, ht, List.append_assoc]⟩
            · split at h
              · exact Option.noConfusion h
              · next σ1 fields2 hst =>
                  simp only [Option.some.injEq, Prod.mk.injEq] at h
                  obtain ⟨t, ht⟩ := stThread_frame _ (hPerField_frame _ hrec) _ σ σ1
                    fields2 hst
                  exact ⟨t ++ [HCell.obj fields2],
                    by rw [← h.1, ht, List.append_assoc]⟩
        · -- an array cell rebuilt as an index-keyed object
          split at h
          · exact Option.noConfusion h
          · next σ1 vs hst =>
              simp only [Option.some.injEq, Prod.mk.injEq] at h
              obtain ⟨t, ht⟩ := stThread_frame _ (hPerValue_frame _ hrec) _ σ σ1 vs hst
              exact ⟨t ++ [HCell.obj (hIndexFields vs)],
                by rw [← h.1, ht, List.append_assoc]⟩
      · exact Option.noConfusion h
      · exact Option.noConfusion h
      · simp only [Option.some.injEq, Prod.mk.injEq] at h
        exact ⟨[HCell.obj []], by rw [← h.1]⟩
      · simp only [Option.some.injEq, Prod.mk.injEq] at h
        exact ⟨[HCell.obj []], by rw [← h.1]⟩
      · next s =>
          simp only [Option.some.injEq, Prod.mk.injEq] at h
          exact ⟨[HCell.obj (hCharFields s)], by rw [← h.1]⟩

/-- C9: substitution never mutates its inputs.  At the heap level, any
successful run of the store-passing `replaceIdentifier` only appends fresh
cells: the output store extends the input store, so every pre-existing cell
— in particular every node of the target tree and of the replacement tree —
reads back unchanged after the call. -/
theorem C9_substitution_frame (fuel : Nat) (σ : Store) (name : String) (w v : HVal)
    (σ2 : Store) (r : HVal)
    (h : replaceIdentifierH fuel σ name w v = some (σ2, r)) :
    (∃ t, σ2 = σ ++ t) ∧ ∀ i, i < σ.length → σ2[i]? = σ[i]? := by
  obtain ⟨t, ht⟩ := replaceIdentifierH_extends fuel σ name w v σ2 r h
  refine ⟨⟨t, ht⟩, ?_⟩
  intro i hi
  rw [ht]
  exact List.getElem?_append_left hi

/-- A three-cell store: `return x;` at cell 0, the identifier `x` at cell 1,
and a replacement literal at cell 2. -/
def storeC9 : Store :=
  [HCell.obj [("type", HVal.str "ReturnStatement"), ("argument", HVal.ref 1)],
   HCell.obj [("type", HVal.str "Identifier"), ("name", HVal.str "x")],
   HCell.obj [("type", HVal.str "Literal"), ("value", HVal.num 1)]]

/-- The store after substituting cell 2 for `x` in cell 0: the three input
cells unchanged plus one freshly allocated result object. -/
def storeC9out : Store :=
  storeC9 ++ [HCell.obj [("type", HVal.str "ReturnStatement"), ("argument", HVal.ref 2)]]

/-- Witness for C9 on the concrete store. -/
theorem C9_substitution_frame_witness :
    (∃ t, storeC9out = storeC9 ++ t) ∧ storeC9out[0]? = storeC9[0]? := by
  have h := C9_substitution_frame 5 storeC9 "x" (HVal.ref 2) (HVal.ref 0) storeC9out
    (HVal.ref 3) (by rfl)
  exact ⟨h.1, h.2 0 (by decide)⟩

/-- Witness for C10: a statement list of one return statement never
shadows, and the nested function parameter named `x` is itself replaced. -/
theorem C10_params_never_shadow_witness :
    scanShadow "x" [mkReturn (mkIdent "x")] = some false ∧
    replaceIdentifier 10 "x" (mkLiteral 7 "7") fnNestedParamX =
      some (mkFunctionExpr [mkLiteral 7 "7"] (mkBlock [mkReturn (mkLiteral 7 "7")])) :=
  ⟨C10_params_never_shadow.1 "x" [mkReturn (mkIdent "x")]
      (fun s hs => by
        have hse : s = mkReturn (mkIdent "x") := by simpa using hs
        subst hse
        exact ⟨"ReturnStatement", rfl, by decide, by decide⟩),
   C10_params_never_shadow.2 (mkLiteral 7 "7")⟩
